import Mathlib

/-!
Shallow embedding of the async chat server (`src/app/server.py`,
`src/app/entities.py`, `src/app/enums.py`) and proofs about it.

Python strings are modelled as Lean `String` (a structure over `List Char`),
Python `None` as `Option.none`, Python sets of entities as Lean lists in
insertion order, and Python exceptions that escape the scheduler's
`__run_task` (`TypeError`, `ValueError`) as an explicit `crash` result.
-/

set_option maxRecDepth 4000

namespace ChatServer

/-- Characters Python `str.strip` / `str.split` treat as whitespace
(ASCII subset; the server's traffic is ASCII command text). -/
def isPySpace (c : Char) : Bool :=
  c == ' ' || c == '\t' || c == '\n' || c == '\r' || c == '\x0b' || c == '\x0c'

/-- Drop whitespace from both ends of a character list. -/
def trimChars (l : List Char) : List Char :=
  ((l.dropWhile isPySpace).reverse.dropWhile isPySpace).reverse

/-- Python `str.strip()`. -/
def pyStrip (s : String) : String := String.mk (trimChars s.data)

/-- Helper for `pySplit`: collect maximal runs of non-whitespace characters,
`acc` holding the (reversed) current word. -/
def wordsAux : List Char → List Char → List (List Char)
  | [], acc => if acc.isEmpty then [] else [acc.reverse]
  | c :: cs, acc =>
    if isPySpace c then
      (if acc.isEmpty then wordsAux cs [] else acc.reverse :: wordsAux cs [])
    else wordsAux cs (c :: acc)

/-- Python `str.split()` with no separator: split on whitespace runs,
discarding empty tokens. -/
def pySplit (s : String) : List String := (wordsAux s.data []).map String.mk

/-- The command marker character.  `COMMAND_PREFIX` is imported by
`server.py` from `app/constants.py`, which is not part of the sources.
Modelled from the spec: "Command prefix is the ASCII character `/`"
(section 6), matching `MessageCommand.prefix = "/"` in `entities.py`. -/
def commandLeadChar : Char := '/'

/-- Python `client_message.replace(COMMAND_PREFIX, '')` (`server.py` line
111): with a one-character pattern and empty replacement this deletes
every occurrence of `'/'`, not only the leading ones. -/
def removeCommandLead (s : String) : String :=
  String.mk (s.data.filter (fun c => c != commandLeadChar))

/-- Python `client_message.startswith(COMMAND_PREFIX)` (`server.py` line 110). -/
def startsWithCommandLead (s : String) : Bool :=
  match s.data with
  | [] => false
  | c :: _ => c == commandLeadChar

/-- The tokenisation performed on a command line by
`Server.__handle_client_message`: delete all `'/'` characters, then split
on whitespace (`server.py` line 111). -/
def commandTokens (line : String) : List String := pySplit (removeCommandLead line)

/-- Python `"\n".join(...)` and friends. -/
def pyJoin (sep : String) : List String → String
  | [] => ""
  | [x] => x
  | x :: xs => x ++ sep ++ pyJoin sep xs

/-- Prepend a character to the first segment of a segment list. -/
def consHead (c : Char) : List (List Char) → List (List Char)
  | [] => [[c]]
  | t :: ts => (c :: t) :: ts

/-- Helper for `splitNl`: split a character list at newline characters
(every occurrence, keeping empty segments, like Python `str.split("\n")`). -/
def splitNlAux : List Char → List (List Char)
  | [] => [[]]
  | c :: cs =>
    if c == '\n' then [] :: splitNlAux cs
    else consHead c (splitNlAux cs)

/-- Split a string into its newline-separated segments. -/
def splitNl (s : String) : List String := (splitNlAux s.data).map String.mk

/-- The first line of a message (characters before the first newline). -/
def firstLine (s : String) : String := String.mk (s.data.takeWhile (fun c => c != '\n'))

/-- UTF-8 encoding of one character (the algorithm used by Python
`str.encode()`), as natural-number byte values. -/
def utf8CharBytes (c : Char) : List Nat :=
  let n := c.toNat
  if n < 0x80 then [n]
  else if n < 0x800 then [0xC0 + n / 0x40, 0x80 + n % 0x40]
  else if n < 0x10000 then
    [0xE0 + n / 0x1000, 0x80 + (n / 0x40) % 0x40, 0x80 + n % 0x40]
  else
    [0xF0 + n / 0x40000, 0x80 + (n / 0x1000) % 0x40, 0x80 + (n / 0x40) % 0x40,
      0x80 + n % 0x40]

/-- UTF-8 encoding of a string (Python `str.encode()`). -/
def utf8Bytes (s : String) : List Nat := s.data.flatMap utf8CharBytes

/-- `TypeTask` from `app/enums.py` (as used in `server.py`): the two wait
directions a task can yield. -/
inductive TypeTask where
  | read
  | write
deriving DecidableEq

/-- `Client` from `app/entities.py`: opaque id (uuid, modelled as `Nat`),
optional display name (`None` until registration), and the underlying
socket (modelled by its descriptor number; the remote address plays no
role in the claims).  Python `==` on the dataclass compares fields, which
record equality models. -/
structure Client where
  id : Nat
  username : Option String
  sock : Nat
deriving DecidableEq

/-- `Client.is_registered` (`entities.py` lines 26-28): the username is not
`None`; an empty string counts as registered. -/
def Client.isRegistered (c : Client) : Bool := c.username != none

/-- Python f-string interpolation of a `Client.username` value: `None`
prints as `"None"`, a string prints as itself. -/
def userStr : Option String → String
  | some u => u
  | none => "None"

/-- `Chat` from `app/entities.py`: a directed pair of clients plus the
`is_approved` flag.  The client records are stored by value, which is
faithful because a username is never mutated after a chat referencing the
client exists. -/
structure Chat where
  id : Nat
  initiator : Client
  target : Client
  is_approved : Bool
deriving DecidableEq

/-- `Chat.members` (`entities.py` lines 39-41). -/
def Chat.members (ch : Chat) : List Client := [ch.initiator, ch.target]

/-- `Chat.get_second_member` (`entities.py` lines 46-53).  Python raises
`RuntimeError` when the argument is neither member; every call site in
`server.py` passes a member, so the final branch is unreachable there and
is given an arbitrary total value. -/
def Chat.getSecondMember (ch : Chat) (c : Client) : Client :=
  if c = ch.initiator then ch.target
  else if c = ch.target then ch.initiator
  else ch.initiator

/-- The server-wide registries (`Server.__clients`, `Server.__chats`).
Python keeps them in `set`s; they are modelled as lists in insertion
order, with `nextId` supplying the fresh opaque ids. -/
structure ServerState where
  clients : List Client
  chats : List Chat
  nextId : Nat
deriving DecidableEq

/-- A logical message queued for a client by `__send_message_to_client`. -/
def Msg := Client × String
deriving DecidableEq

/-- The Python exceptions that escape `Server.__run_task` (which catches
only `StopIteration` and `ClientDisconnected`) and so abort the event
loop. -/
inductive PyErr where
  | typeError
  | valueError
deriving DecidableEq

/-- Result of resuming a handler: either a new state plus the messages it
sent, or an uncaught exception that crashes the server. -/
inductive StepResult where
  | ok (s : ServerState) (msgs : List Msg)
  | crash (e : PyErr)
deriving DecidableEq

/-- The command table of `app/enums.py` (`Commands`). -/
inductive Cmd where
  | clients
  | connect
  | disconnect
  | dialog
  | approve
  | decline
  | requests
  | help
deriving DecidableEq

/-- `Commands` member order as declared (and hence the iteration order of
the `Server.__commands` dict, which preserves insertion order). -/
def commandTable : List Cmd :=
  [Cmd.clients, Cmd.connect, Cmd.disconnect, Cmd.dialog, Cmd.approve,
    Cmd.decline, Cmd.requests, Cmd.help]

/-- The enum `value` strings. -/
def cmdValue : Cmd → String
  | Cmd.clients => "clients"
  | Cmd.connect => "connect"
  | Cmd.disconnect => "disconnect"
  | Cmd.dialog => "dialog"
  | Cmd.approve => "approve"
  | Cmd.decline => "decline"
  | Cmd.requests => "requests"
  | Cmd.help => "help"

/-- The declared argument lists (`Commands._args_`; `None` becomes `[]`). -/
def cmdArgs : Cmd → List String
  | Cmd.connect => ["username"]
  | Cmd.approve => ["username"]
  | Cmd.decline => ["username"]
  | _ => []

/-- The enum descriptions. -/
def cmdDescription : Cmd → String
  | Cmd.clients => "Get client list for connection"
  | Cmd.connect => "Connect to another client"
  | Cmd.disconnect => "Disconnect from current dialog"
  | Cmd.dialog => "Show username of current dialogue partner"
  | Cmd.approve => "Start chat with <username>"
  | Cmd.decline => "Decline chat with <username>"
  | Cmd.requests => "Get all chat requests"
  | Cmd.help => "Commands list."

/-- `Commands.display` (`enums.py` lines 32-35). -/
def cmdDisplay (c : Cmd) : String :=
  let args :=
    if (cmdArgs c).isEmpty then ""
    else " " ++ pyJoin ", " ((cmdArgs c).map (fun a => "<" ++ a ++ ">"))
  String.mk [commandLeadChar] ++ cmdValue c ++ args ++ " - " ++ cmdDescription c

/-- `Commands(raw_command)`: parse an enum member from its value string;
`ValueError` (no member) becomes `none`. -/
def parseCommand (raw : String) : Option Cmd :=
  commandTable.find? (fun c => cmdValue c == raw)

/-- `Server.__get_client_by_username` (`server.py` lines 366-373):
first client whose `username` equals the string (an unregistered client's
`None` never equals a string). -/
def getClientByUsername (s : ServerState) (u : String) : Option Client :=
  s.clients.find? (fun c => c.username == some u)

/-- `Server.__get_active_chat_by_client` (`server.py` lines 398-401). -/
def getActiveChatByClient (s : ServerState) (c : Client) : Option Chat :=
  s.chats.find? (fun ch => (c == ch.initiator || c == ch.target) && ch.is_approved)

/-- `Server.__get_inactive_chat_by_clients` (`server.py` lines 403-409). -/
def getInactiveChatByClients (s : ServerState) (ini tgt : Client) : Option Chat :=
  s.chats.find? (fun ch => tgt == ch.target && ini == ch.initiator && !ch.is_approved)

/-- `Server.__get_inactive_chats_by_client` (`server.py` lines 411-418).
Note: the filter requires only `chat.target == client`; unlike the
namesake in `app/repositories.py` it does not require
`not chat.is_approved`, so approved chats are included. -/
def getInactiveChatsByClient (s : ServerState) (c : Client) : List Chat :=
  s.chats.filter (fun ch => ch.target == c)

/-- `Server.__add_chat` (`server.py` lines 380-389): unconditionally create
a pending chat and add it to the registry. -/
def addChat (s : ServerState) (ini tgt : Client) : ServerState × Chat :=
  let chat : Chat := ⟨s.nextId, ini, tgt, false⟩
  (⟨s.clients, s.chats ++ [chat], s.nextId + 1⟩, chat)

/-- `Server.__delete_chat` (`server.py` lines 391-396): `set.discard`. -/
def deleteChat (s : ServerState) (ch : Chat) : ServerState :=
  ⟨s.clients, s.chats.erase ch, s.nextId⟩

/-- `Chat.approve` applied to a chat in the registry (`entities.py` lines
43-44; the Python set holds the mutated object). -/
def approveChat (s : ServerState) (ch : Chat) : ServerState :=
  ⟨s.clients, s.chats.map (fun x => if x = ch then ⟨x.id, x.initiator, x.target, true⟩ else x),
    s.nextId⟩

/-- `Client.set_username` applied to a client in the registry
(`entities.py` lines 23-24; the Python set holds the mutated object). -/
def setUsername (s : ServerState) (c : Client) (u : String) : ServerState :=
  ⟨s.clients.map (fun x => if x = c then ⟨x.id, some u, x.sock⟩ else x), s.chats, s.nextId⟩

/-- `Server.__delete_chats_by_client` (`server.py` lines 420-423). -/
def deleteChatsByClient (s : ServerState) (c : Client) : ServerState :=
  ⟨s.clients, s.chats.filter (fun ch => !(c == ch.initiator || c == ch.target)), s.nextId⟩

/-- `Server.__disconnect_client` (`server.py` lines 426-433): remove the
client's chats, then the client (scheduler-table scrubbing and the socket
close have no registry effect). -/
def disconnectClient (s : ServerState) (c : Client) : ServerState :=
  let s1 := deleteChatsByClient s c
  ⟨s1.clients.erase c, s1.chats, s1.nextId⟩

/-- `Server.__execute_connect_command` (`server.py` lines 153-170). -/
def executeConnectCommand (s : ServerState) (caller : Client) (targetName : String) :
    ServerState × List Msg :=
  if caller.username = some targetName then
    (s, [(caller, "Client is trying to connect to itself.")])
  else
    match getActiveChatByClient s caller with
    | some chat =>
      (s, [(caller, "You already in chat with " ++
        userStr (chat.getSecondMember caller).username ++ ".")])
    | none =>
      match getClientByUsername s targetName with
      | none => (s, [(caller, "Client may be disconnected.")])
      | some target =>
        ((addChat s caller target).1,
          [(target, userStr caller.username ++ " wants to start a chat with you.")])

/-- The usernames enumerated by `Server.__execute_list_clients_command`
(`server.py` lines 173-180): registered clients whose username differs
from the caller's. -/
def listedNames (s : ServerState) (caller : Client) : List String :=
  (s.clients.filter
    (fun cl => cl.isRegistered && cl.username != caller.username)).map
      (fun cl => userStr cl.username)

/-- `Server.__execute_list_clients_command` (`server.py` lines 172-184). -/
def executeListClientsCommand (s : ServerState) (caller : Client) :
    ServerState × List Msg :=
  let msg := pyJoin "\n" (listedNames s caller)
  let msg := if msg = "" then "No available clients." else msg
  (s, [(caller, msg)])

/-- `Server.__execute_disconnect_command` (`server.py` lines 186-197). -/
def executeDisconnectCommand (s : ServerState) (caller : Client) :
    ServerState × List Msg :=
  match getActiveChatByClient s caller with
  | none => (s, [(caller, "You have no active chat now.")])
  | some chat =>
    let s' := deleteChat s chat
    (s', chat.members.map (fun m =>
      (m, "Chat with " ++ userStr (chat.getSecondMember m).username ++ " ended.")))

/-- `Server.__execute_chat_info_command` (`server.py` lines 199-206). -/
def executeChatInfoCommand (s : ServerState) (caller : Client) :
    ServerState × List Msg :=
  match getActiveChatByClient s caller with
  | none => (s, [(caller, "You do not have active chats.")])
  | some chat =>
    (s, [(caller, "You have active chat with " ++
      userStr (chat.getSecondMember caller).username ++ ".")])

/-- `Server.__execute_approve_chat_command` (`server.py` lines 208-250). -/
def executeApproveChatCommand (s : ServerState) (caller : Client) (username : String) :
    ServerState × List Msg :=
  if caller.username = some username then
    (s, [(caller, "You are trying to approve a chat with yourself.")])
  else
    match getActiveChatByClient s caller with
    | some chat =>
      (s, [(caller, "You already has an active chat with " ++
        userStr (chat.getSecondMember caller).username ++ ".")])
    | none =>
      match getClientByUsername s username with
      | none => (s, [(caller, "Chat initiator may be disconnected.")])
      | some chatInitiator =>
        match getActiveChatByClient s chatInitiator with
        | some _ =>
          (s, [(caller, userStr chatInitiator.username ++ " already has an active chat.")])
        | none =>
          match getInactiveChatByClients s chatInitiator caller with
          | some inactive =>
            let s' := approveChat s inactive
            (s', [(inactive.initiator,
                    "You started a chat with " ++ userStr inactive.target.username ++ "."),
                  (inactive.target,
                    "You started a chat with " ++ userStr inactive.initiator.username ++ ".")])
          | none =>
            (s, [(caller, "You have no chat request from " ++ username ++ ".")])

/-- `Server.__execute_decline_chat_command` (`server.py` lines 252-281). -/
def executeDeclineChatCommand (s : ServerState) (caller : Client) (username : String) :
    ServerState × List Msg :=
  if caller.username = some username then
    (s, [(caller, "You are trying to decline a chat with yourself.")])
  else
    match getClientByUsername s username with
    | none => (s, [(caller, "Chat initiator may be disconnected.")])
    | some chatInitiator =>
      match getInactiveChatByClients s chatInitiator caller with
      | some inactive =>
        let s' := deleteChat s inactive
        (s', [(inactive.target,
                "You declined a chat request from " ++ userStr inactive.initiator.username ++ "."),
              (inactive.initiator,
                userStr inactive.target.username ++ " declined your chat request.")])
      | none =>
        (s, [(caller, "You have no chat request from " ++ username ++ ".")])

/-- The numbered lines accumulated by `Server.__execue_requests_command`
(`server.py` lines 289-290), starting the enumeration at `i`. -/
def requestLines : Nat → List Chat → String
  | _, [] => ""
  | i, ch :: rest =>
    Nat.repr i ++ ". " ++ userStr ch.initiator.username ++ "\n" ++ requestLines (i + 1) rest

/-- `Server.__execue_requests_command` (`server.py` lines 283-292). -/
def executeRequestsCommand (s : ServerState) (caller : Client) :
    ServerState × List Msg :=
  let inactive := getInactiveChatsByClient s caller
  let msg :=
    if inactive.isEmpty then "You not have chat requests"
    else "Chat requests from:\n" ++ requestLines 1 inactive
  (s, [(caller, pyStrip msg)])

/-- The help text built by `Server.__execute_help_command` (`server.py`
lines 147-151): note the source spells the header "Avaliable". -/
def helpMessage : String :=
  pyStrip (commandTable.foldl (fun m c => m ++ cmdDisplay c ++ "\n") "Avaliable commands:\n")

/-- `Server.__execute_help_command` (`server.py` lines 147-151). -/
def executeHelpCommand (s : ServerState) (caller : Client) :
    ServerState × List Msg :=
  (s, [(caller, helpMessage)])

/-- `Server.__handle_client_command` (`server.py` lines 59-98).  An unknown
name replies "Unknown command: ...".  The handler is then invoked with the
argument tokens only when the command declares arguments, at least one
token was supplied, and the counts agree (line 95); otherwise it is
invoked as `handler(client)`, which for a command that requires a
`username` parameter raises `TypeError` — uncaught by `__run_task`, which
catches only `StopIteration` and `ClientDisconnected`.  (The
`parsed_command not in self.__commands` branch at lines 84-90 is
unreachable: every `Commands` member is a key of the dict.) -/
def handleClientCommand (s : ServerState) (caller : Client) (raw : String)
    (args : List String) : StepResult :=
  match parseCommand raw with
  | none => StepResult.ok s [(caller, "Unknown command: " ++ raw ++ ".")]
  | some cmd =>
    if !(cmdArgs cmd).isEmpty && !args.isEmpty && args.length = (cmdArgs cmd).length then
      match cmd, args with
      | Cmd.connect, [u] =>
        let (s', msgs) := executeConnectCommand s caller u
        StepResult.ok s' msgs
      | Cmd.approve, [u] =>
        let (s', msgs) := executeApproveChatCommand s caller u
        StepResult.ok s' msgs
      | Cmd.decline, [u] =>
        let (s', msgs) := executeDeclineChatCommand s caller u
        StepResult.ok s' msgs
      | _, _ => StepResult.crash PyErr.typeError
    else
      match cmd with
      | Cmd.connect => StepResult.crash PyErr.typeError
      | Cmd.approve => StepResult.crash PyErr.typeError
      | Cmd.decline => StepResult.crash PyErr.typeError
      | Cmd.clients =>
        let (s', msgs) := executeListClientsCommand s caller
        StepResult.ok s' msgs
      | Cmd.disconnect =>
        let (s', msgs) := executeDisconnectCommand s caller
        StepResult.ok s' msgs
      | Cmd.dialog =>
        let (s', msgs) := executeChatInfoCommand s caller
        StepResult.ok s' msgs
      | Cmd.requests =>
        let (s', msgs) := executeRequestsCommand s caller
        StepResult.ok s' msgs
      | Cmd.help =>
        let (s', msgs) := executeHelpCommand s caller
        StepResult.ok s' msgs

/-- `Server.__handle_chat_message` (`server.py` lines 122-128). -/
def handleChatMessage (s : ServerState) (caller : Client) (message : String) :
    ServerState × List Msg :=
  match getActiveChatByClient s caller with
  | none => (s, [])
  | some chat =>
    let second := chat.getSecondMember caller
    (s, [(second, userStr caller.username ++ ": " ++ pyStrip message)])

/-- One resumption of `Server.__handle_client_message` (`server.py` lines
100-120) on a received chunk `raw` (already UTF-8 decoded).  An empty
chunk is the zero-byte read in `__receive_from_client_safe`: the client
is disconnected and `ClientDisconnected` ends the task (caught by
`__run_task`, so not a crash).  A line of `'/'` and whitespace only makes
`raw_command, *command_args = ...` unpack an empty list, raising
`ValueError`, which is uncaught. -/
def handleClientMessageStep (s : ServerState) (c : Client) (raw : String) : StepResult :=
  if raw = "" then StepResult.ok (disconnectClient s c) []
  else if startsWithCommandLead raw then
    match commandTokens raw with
    | [] => StepResult.crash PyErr.valueError
    | cmd :: args => handleClientCommand s c cmd args
  else
    match getActiveChatByClient s c with
    | some _ =>
      let (s', msgs) := handleChatMessage s c raw
      StepResult.ok s' msgs
    | none => StepResult.ok s [(c, "You are not consistent with any chat.")]

/-- One resumption of `Server.__handle_register_client` (`server.py` lines
130-145) on a received chunk `raw`.  The name check (line 134, against the
usernames of every current client, registered or not) and the assignment
(line 140) happen in this same resumption: the generator has no yield
between them.  On success the help text is the message sent. -/
def handleRegisterClientStep (s : ServerState) (c : Client) (raw : String) :
    ServerState × List Msg :=
  if raw = "" then (disconnectClient s c, [])
  else
    let username := pyStrip raw
    if some username ∈ s.clients.map (fun x => x.username) then
      (s, [(c, "Username is already in use, try another one:")])
    else
      let s' := setUsername s c username
      (s', [(⟨c.id, some username, c.sock⟩, helpMessage)])

/-- One iteration of the accept task `Server.__handle_client_connection`
(`server.py` lines 51-57): create an unregistered client and greet it. -/
def acceptStep (s : ServerState) : ServerState × List Msg :=
  let c : Client := ⟨s.nextId, none, s.nextId⟩
  (⟨s.clients ++ [c], s.chats, s.nextId + 1⟩, [(c, "Hi! Write your username.")])

/-- `Server.__get_client_by_socket`-style lookup by the opaque id, used to
address actions to a connection. -/
def findClientById (s : ServerState) (cid : Nat) : Option Client :=
  s.clients.find? (fun c => c.id == cid)

/-- The externally driven events of the server: a connection is accepted,
or a connection's current task receives one chunk of input.  A
registration chunk applies only while the client exists and is
unregistered, and a message-loop chunk only once it is registered,
mirroring the task lifecycle (`__handle_register_client` spawns
`__handle_client_message` exactly when the name is set); out-of-lifecycle
actions are no-ops. -/
inductive Action where
  | accept
  | register (cid : Nat) (raw : String)
  | message (cid : Nat) (raw : String)
deriving DecidableEq

/-- Apply one action to the server state. -/
def stepAction (s : ServerState) (a : Action) : StepResult :=
  match a with
  | Action.accept =>
    let (s', msgs) := acceptStep s
    StepResult.ok s' msgs
  | Action.register cid raw =>
    match findClientById s cid with
    | some c =>
      if c.username = none then
        let (s', msgs) := handleRegisterClientStep s c raw
        StepResult.ok s' msgs
      else StepResult.ok s []
    | none => StepResult.ok s []
  | Action.message cid raw =>
    match findClientById s cid with
    | some c =>
      if c.username = none then StepResult.ok s []
      else handleClientMessageStep s c raw
    | none => StepResult.ok s []

/-- Run a sequence of actions from a state; a crash aborts the run. -/
def runActs : ServerState → List Action → Option ServerState
  | s, [] => some s
  | s, a :: rest =>
    match stepAction s a with
    | StepResult.ok s' _ => runActs s' rest
    | StepResult.crash _ => none

/-- The state of a freshly started server: no clients, no chats. -/
def initState : ServerState := ⟨[], [], 0⟩

/-- A state is reachable when some sequence of connections, registrations,
commands and disconnections produces it from the initial state. -/
def Reachable (s : ServerState) : Prop :=
  ∃ acts : List Action, runActs initState acts = some s

/-- A scheduler effect of `__send_message_to_client`: the yielded wait
descriptor, or the actual `socket.send` of a byte string. -/
inductive Effect where
  | wait (dir : TypeTask) (sock : Nat)
  | send (sock : Nat) (bytes : List Nat)
deriving DecidableEq

/-- Whether an effect is a `socket.send` call. -/
def Effect.isSend : Effect → Bool
  | Effect.send _ _ => true
  | _ => false

/-- `Server.__send_message_to_client` (`server.py` lines 449-456) as its
effect trace: yield `(WRITE, socket)` once, then one `send` call whose
bytes are `message.encode() + b"\n"`. -/
def sendMessageToClient (c : Client) (message : String) : List Effect :=
  [Effect.wait TypeTask.write c.sock,
   Effect.send c.sock (utf8Bytes message ++ [10])]

/-- The tokenisation the spec describes (for comparison with
`commandTokens`).  Modelled from the spec: "strip all leading `/`
characters, split on whitespace" — only the leading run of `'/'` is
removed. -/
def specCommandTokens (line : String) : List String :=
  pySplit (String.mk (line.data.dropWhile (fun c => c == commandLeadChar)))

/-- The per-command error replies enumerated by the spec's dispatch and
error-case rules (unknown command, self-target, caller or named initiator
already in an active chat, unknown target user, no matching pending chat,
no active chat). -/
def IsErrorReply (m : String) : Prop :=
  (∃ raw, m = "Unknown command: " ++ raw ++ ".") ∨
  m = "Client is trying to connect to itself." ∨
  (∃ p, m = "You already in chat with " ++ p ++ ".") ∨
  m = "Client may be disconnected." ∨
  m = "You are trying to approve a chat with yourself." ∨
  m = "You are trying to decline a chat with yourself." ∨
  (∃ p, m = "You already has an active chat with " ++ p ++ ".") ∨
  (∃ n, m = n ++ " already has an active chat.") ∨
  m = "Chat initiator may be disconnected." ∨
  (∃ n, m = "You have no chat request from " ++ n ++ ".") ∨
  m = "You have no active chat now." ∨
  m = "You do not have active chats."

/-- The client `alice` as created by the traces below. -/
def cAlice : Client := ⟨0, some "alice", 0⟩

/-- The client `bob` as created by the traces below. -/
def cBob : Client := ⟨1, some "bob", 1⟩

/-- Accept two connections and register them as `alice` and `bob`. -/
def twoClientsActs : List Action :=
  [Action.accept, Action.accept, Action.register 0 "alice", Action.register 1 "bob"]

/-- The state after `twoClientsActs`. -/
def twoClientsState : ServerState := ⟨[cAlice, cBob], [], 2⟩

example : runActs initState twoClientsActs = some twoClientsState := by decide

/-- The state with one pending chat `alice → bob`, reached from
`twoClientsActs` by one `/connect bob` from alice. -/
def onePendingState : ServerState :=
  ⟨[cAlice, cBob], [⟨2, cAlice, cBob, false⟩], 3⟩

/-- The state with two pending chats `alice → bob`, reached by a second
`/connect bob` from alice. -/
def twoPendingState : ServerState :=
  ⟨[cAlice, cBob], [⟨2, cAlice, cBob, false⟩, ⟨3, cAlice, cBob, false⟩], 4⟩

/-- The state with one approved chat `alice → bob`, reached from
`onePendingState` by bob's `/approve alice`. -/
def approvedState : ServerState :=
  ⟨[cAlice, cBob], [⟨2, cAlice, cBob, true⟩], 3⟩

/-- C1: the spec claims a known command with a wrong argument count is
answered with one reply "Invalid command args." and a return to Idle.
The code has no such reply: for a command that declares a `username`
argument, a wrong token count makes `__handle_client_command` call the
handler as `handler(client)`, raising `TypeError`, which `__run_task`
does not catch (it catches only `StopIteration` and `ClientDisconnected`),
so the event loop aborts; for a zero-argument command, surplus tokens are
silently dropped and the command runs normally (here `/help extra` runs
`/help`). -/
theorem wrong_arity_crashes_instead_of_invalid_args_reply :
    stepAction twoClientsState (Action.message 0 "/connect") =
      StepResult.crash PyErr.typeError ∧
    stepAction twoClientsState (Action.message 0 "/connect bob carol") =
      StepResult.crash PyErr.typeError ∧
    stepAction twoClientsState (Action.message 0 "/help extra") =
      StepResult.ok twoClientsState [(cAlice, helpMessage)] := by
  exact ⟨by decide, by decide, by decide⟩

/-- C2, counterexample: a reachable state carries two pending chats with
initiator alice and target bob — a second `/connect bob` from alice while
the first request is still pending creates a second chat
(`__execute_connect_command` never checks for an existing pending chat
before `__add_chat`). -/
theorem duplicate_pending_chat_reachable :
    Reachable twoPendingState ∧
    stepAction onePendingState (Action.message 0 "/connect bob") =
      StepResult.ok twoPendingState
        [(cBob, "alice wants to start a chat with you.")] ∧
    ¬ ((twoPendingState.chats.filter
        (fun ch => ch.initiator == cAlice && ch.target == cBob && !ch.is_approved)).length ≤ 1) := by
  refine ⟨⟨twoClientsActs ++ [Action.message 0 "/connect bob", Action.message 0 "/connect bob"], by decide⟩, by decide, by decide⟩

/-- C3: the spec claims `/requests` lists only pending (unapproved) chats
targeting the caller.  `__get_inactive_chats_by_client` (`server.py` line
412) filters by `chat.target == client` only, without `not
chat.is_approved` (unlike its namesake in `app/repositories.py`), so in
the reachable state where bob's chat with alice is already approved, bob's
`/requests` still lists alice instead of replying "You not have chat
requests". -/
theorem requests_lists_approved_chat :
    Reachable approvedState ∧
    (getInactiveChatsByClient approvedState cBob).all (fun ch => ch.is_approved) = true ∧
    (getInactiveChatsByClient approvedState cBob).length = 1 ∧
    stepAction approvedState (Action.message 1 "/requests") =
      StepResult.ok approvedState [(cBob, "Chat requests from:\n1. alice")] := by
  refine ⟨⟨twoClientsActs ++ [Action.message 0 "/connect bob", Action.message 1 "/approve alice"], by decide⟩, by decide, by decide, by decide⟩

/-- C4, counterexample: the dispatcher removes every `'/'` in the line
(`str.replace`), so a `'/'` inside an argument token is deleted, where
the spec's leading-strip tokenisation would preserve it: on
"/connect a/b" the code produces the argument "ab", not "a/b". -/
theorem slash_inside_token_deleted :
    commandTokens "/connect a/b" = ["connect", "ab"] ∧
    specCommandTokens "/connect a/b" = ["connect", "a/b"] ∧
    commandTokens "/connect a/b" ≠ specCommandTokens "/connect a/b" := by
  exact ⟨by decide, by decide, by decide⟩

/-- C7, counterexample: when the `/approve` or `/decline` argument names
no existing client at all, the reply is "Chat initiator may be
disconnected." (the `__get_client_by_username` check at `server.py`
lines 221-224 and 258-261 fires first), not "You have no chat request
from <name>." as the claim states. -/
theorem unknown_user_approve_decline_reply :
    Reachable twoClientsState ∧
    getClientByUsername twoClientsState "ghost" = none ∧
    stepAction twoClientsState (Action.message 0 "/approve ghost") =
      StepResult.ok twoClientsState [(cAlice, "Chat initiator may be disconnected.")] ∧
    stepAction twoClientsState (Action.message 0 "/decline ghost") =
      StepResult.ok twoClientsState [(cAlice, "Chat initiator may be disconnected.")] ∧
    ("Chat initiator may be disconnected." : String) ≠
      "You have no chat request from ghost." := by
  exact ⟨⟨twoClientsActs, by decide⟩, by decide, by decide, by decide, by decide⟩

/-- C9, counterexample: the help text the server sends right after a name
is accepted starts with the line "Avaliable commands:" (`server.py` line
148 misspells the word), not "Available commands:". -/
theorem help_header_misspelled :
    stepAction ⟨[⟨0, none, 0⟩], [], 1⟩ (Action.register 0 "alice") =
      StepResult.ok ⟨[cAlice], [], 1⟩ [(cAlice, helpMessage)] ∧
    firstLine helpMessage = "Avaliable commands:" ∧
    firstLine helpMessage ≠ "Available commands:" := by
  exact ⟨by decide, by decide, by decide⟩

/-- The state with a client registered under the empty name plus `bob`,
reached by registering a whitespace-only line. -/
def emptyNameState : ServerState := ⟨[⟨0, some "", 0⟩, cBob], [], 2⟩

/-- C10, counterexample: a whitespace-only registration line is accepted
(username set to `""`, `is_registered` true) — but when the empty-named
client is the only other registered client, `"\n".join` of the name list
is the empty string, which `__execute_list_clients_command` replaces with
"No available clients.", so the client does not appear as an empty line
in bob's `/clients` output. -/
theorem sole_empty_name_not_listed :
    Reachable emptyNameState ∧
    (⟨0, some "", 0⟩ : Client) ∈ emptyNameState.clients ∧
    Client.isRegistered ⟨0, some "", 0⟩ = true ∧
    listedNames emptyNameState cBob = [""] ∧
    stepAction emptyNameState (Action.message 1 "/clients") =
      StepResult.ok emptyNameState [(cBob, "No available clients.")] ∧
    ("" : String) ∉ splitNl "No available clients." := by
  refine ⟨⟨[Action.accept, Action.accept, Action.register 0 "   ", Action.register 1 "bob"], by decide⟩, by decide, by decide, by decide, by decide, by decide⟩

/-- Every character of a word produced by `wordsAux` comes from the input
list or the accumulator. -/
theorem wordsAux_chars :
    ∀ (l acc w : List Char), w ∈ wordsAux l acc → ∀ c ∈ w, c ∈ l ∨ c ∈ acc := by
  intro l
  induction l with
  | nil =>
    intro acc w hw c hc
    unfold wordsAux at hw
    split at hw
    · simp at hw
    · simp only [List.mem_singleton] at hw
      subst hw
      exact Or.inr (List.mem_reverse.mp hc)
  | cons a as ih =>
    intro acc w hw c hc
    unfold wordsAux at hw
    by_cases hsp : isPySpace a
    · rw [if_pos hsp] at hw
      by_cases hacc : acc.isEmpty
      · rw [if_pos hacc] at hw
        rcases ih [] w hw c hc with h | h
        · exact Or.inl (List.mem_cons_of_mem _ h)
        · simp at h
      · rw [if_neg hacc] at hw
        rcases List.mem_cons.mp hw with h | h
        · subst h
          exact Or.inr (List.mem_reverse.mp hc)
        · rcases ih [] w h c hc with h2 | h2
          · exact Or.inl (List.mem_cons_of_mem _ h2)
          · simp at h2
    · rw [if_neg hsp] at hw
      rcases ih (a :: acc) w hw c hc with h | h
      · exact Or.inl (List.mem_cons_of_mem _ h)
      · rcases List.mem_cons.mp h with h2 | h2
        · exact Or.inl (h2 ▸ List.mem_cons_self _ _)
        · exact Or.inr h2

/-- C4, amended: the dispatcher's tokenisation deletes every `'/'` from
the line before splitting on whitespace, so no argument token ever
contains a `'/'` — a `'/'` occurring later in the line is removed from
its token, not preserved. -/
theorem command_tokens_contain_no_slash (line t : String)
    (ht : t ∈ commandTokens line) : commandLeadChar ∉ t.data := by
  unfold commandTokens pySplit at ht
  rcases List.mem_map.mp ht with ⟨w, hw, rfl⟩
  intro hc
  rcases wordsAux_chars _ _ _ hw _ hc with h | h
  · have h2 := List.of_mem_filter (p := fun c => c != commandLeadChar) h
    simp at h2
  · simp at h

/-- Witness for `command_tokens_contain_no_slash` at the token "connect"
of the line "/connect a/b". -/
theorem command_tokens_contain_no_slash_witness :
    ("connect" ∈ commandTokens "/connect a/b") ∧
      commandLeadChar ∉ ("connect" : String).data :=
  ⟨by decide, command_tokens_contain_no_slash "/connect a/b" "connect" (by decide)⟩

/-- C8: `__send_message_to_client` yields one WRITE wait and performs one
`send` call whose bytes are the UTF-8 encoding of the payload followed by
exactly one `'\n'` byte (10): exactly the bytes of `payload + "\n"`, and
the byte string ends in 10. -/
theorem send_appends_single_newline (c : Client) (m : String) :
    sendMessageToClient c m =
      [Effect.wait TypeTask.write c.sock, Effect.send c.sock (utf8Bytes m ++ [10])] ∧
    (sendMessageToClient c m).filter Effect.isSend =
      [Effect.send c.sock (utf8Bytes m ++ [10])] ∧
    utf8Bytes (m ++ "\n") = utf8Bytes m ++ [10] ∧
    (utf8Bytes m ++ [10]).getLast? = some 10 := by
  refine ⟨rfl, rfl, ?_, by simp⟩
  show ((m ++ "\n").data).flatMap utf8CharBytes = m.data.flatMap utf8CharBytes ++ [10]
  have hdata : (m ++ "\n").data = m.data ++ ['\n'] := rfl
  rw [hdata, List.flatMap_append]
  rfl

/-- C7, amended: for a `/decline` whose argument names an existing client
(different from the caller's username) but matches no pending chat with
that client as initiator and the caller as target, the reply is "You have
no chat request from <name>." and the state is unchanged — with no
condition on active chats, which `__execute_decline_chat_command` never
consults; the same reply holds for `/approve` provided additionally that
neither the caller nor the named client is in an active chat (those
checks precede the pending-chat lookup there).  When no client with that
username exists, the reply is "Chat initiator may be disconnected."
instead — unconditionally so for `/decline`, and for `/approve` provided
the caller is in no active chat, whose error takes precedence. -/
theorem no_matching_pending_chat_reply (s : ServerState) (caller ini : Client) (u : String)
    (hself : caller.username ≠ some u) :
    (getClientByUsername s u = some ini →
      getInactiveChatByClients s ini caller = none →
      executeDeclineChatCommand s caller u =
        (s, [(caller, "You have no chat request from " ++ u ++ ".")])) ∧
    (getClientByUsername s u = some ini →
      getInactiveChatByClients s ini caller = none →
      getActiveChatByClient s caller = none →
      getActiveChatByClient s ini = none →
      executeApproveChatCommand s caller u =
        (s, [(caller, "You have no chat request from " ++ u ++ ".")])) ∧
    (getClientByUsername s u = none →
      executeDeclineChatCommand s caller u =
        (s, [(caller, "Chat initiator may be disconnected.")])) ∧
    (getClientByUsername s u = none →
      getActiveChatByClient s caller = none →
      executeApproveChatCommand s caller u =
        (s, [(caller, "Chat initiator may be disconnected.")])) := by
  refine ⟨?_, ?_, ?_, ?_⟩
  · intro hini hnochat
    simp [executeDeclineChatCommand, hself, hini, hnochat]
  · intro hini hnochat hcallerActive hiniActive
    simp [executeApproveChatCommand, hself, hcallerActive, hini, hiniActive, hnochat]
  · intro hnone
    simp [executeDeclineChatCommand, hself, hnone]
  · intro hnone hcallerActive
    simp [executeApproveChatCommand, hself, hcallerActive, hnone]

/-- Witness for `no_matching_pending_chat_reply`, covering all four
conjuncts: bob declines alice in the state where their chat is already
active (so bob is in an active chat and the pending-chat lookup fails),
bob declines the non-existent "ghost" there, and in the chat-free
two-client state alice approves bob and approves "ghost". -/
theorem no_matching_pending_chat_reply_witness :
    executeDeclineChatCommand approvedState cBob "alice" =
      (approvedState, [(cBob, "You have no chat request from " ++ "alice" ++ ".")]) ∧
    executeDeclineChatCommand approvedState cBob "ghost" =
      (approvedState, [(cBob, "Chat initiator may be disconnected.")]) ∧
    executeApproveChatCommand twoClientsState cAlice "bob" =
      (twoClientsState, [(cAlice, "You have no chat request from " ++ "bob" ++ ".")]) ∧
    executeApproveChatCommand twoClientsState cAlice "ghost" =
      (twoClientsState, [(cAlice, "Chat initiator may be disconnected.")]) :=
  ⟨(no_matching_pending_chat_reply approvedState cBob cAlice "alice"
      (by decide)).1 (by decide) (by decide),
   (no_matching_pending_chat_reply approvedState cBob cAlice "ghost"
      (by decide)).2.2.1 (by decide),
   (no_matching_pending_chat_reply twoClientsState cAlice cBob "bob"
      (by decide)).2.1 (by decide) (by decide) (by decide) (by decide),
   (no_matching_pending_chat_reply twoClientsState cAlice cBob "ghost"
      (by decide)).2.2.2 (by decide) (by decide)⟩

/-- C9, amended: when a registration line is accepted (non-empty chunk,
stripped name not yet taken), the one message produced — the next message
that client receives — is the help text, whose first line is
"Avaliable commands:" (as spelled by the source) followed by one line per
command of the command table, with its arguments and description
(`Commands.display`). -/
theorem register_success_sends_help (s : ServerState) (cid : Nat) (raw : String) (c : Client)
    (hfind : findClientById s cid = some c) (hunreg : c.username = none) (hraw : raw ≠ "")
    (hfree : some (pyStrip raw) ∉ s.clients.map (fun x => x.username)) :
    stepAction s (Action.register cid raw) =
      StepResult.ok (setUsername s c (pyStrip raw))
        [(⟨c.id, some (pyStrip raw), c.sock⟩, helpMessage)] ∧
    splitNl helpMessage = "Avaliable commands:" :: commandTable.map cmdDisplay := by
  constructor
  · simp [stepAction, hfind, hunreg, handleRegisterClientStep, hraw, hfree]
  · decide

/-- Witness for `register_success_sends_help`: a fresh client registers
"carol" beside alice and bob. -/
theorem register_success_sends_help_witness :
    stepAction ⟨[cAlice, cBob, ⟨2, none, 2⟩], [], 3⟩ (Action.register 2 "carol") =
      StepResult.ok
        (setUsername ⟨[cAlice, cBob, ⟨2, none, 2⟩], [], 3⟩ ⟨2, none, 2⟩ (pyStrip "carol"))
        [(⟨2, some (pyStrip "carol"), 2⟩, helpMessage)] ∧
    splitNl helpMessage = "Avaliable commands:" :: commandTable.map cmdDisplay :=
  register_success_sends_help ⟨[cAlice, cBob, ⟨2, none, 2⟩], [], 3⟩ 2 "carol" ⟨2, none, 2⟩
    (by decide) (by decide) (by decide) (by decide)

/-- C2, amended: a `/connect` whose caller is not in an active chat and
whose target username resolves appends a fresh pending chat
unconditionally, so a `/connect` issued by A naming B while a pending
chat A→B already exists creates a second one: the number of pending
chats for the ordered pair grows by one. -/
theorem connect_appends_pending_chat (s : ServerState) (caller target : Client) (u : String)
    (hself : caller.username ≠ some u)
    (hactive : getActiveChatByClient s caller = none)
    (htarget : getClientByUsername s u = some target) :
    executeConnectCommand s caller u =
      (⟨s.clients, s.chats ++ [⟨s.nextId, caller, target, false⟩], s.nextId + 1⟩,
        [(target, userStr caller.username ++ " wants to start a chat with you.")]) ∧
    ((s.chats ++ [(⟨s.nextId, caller, target, false⟩ : Chat)]).filter
        (fun ch => ch.initiator == caller && ch.target == target && !ch.is_approved)).length
      = (s.chats.filter
        (fun ch => ch.initiator == caller && ch.target == target && !ch.is_approved)).length + 1 := by
  constructor
  · simp [executeConnectCommand, hself, hactive, htarget, addChat]
  · rw [List.filter_append]
    simp

/-- Witness for `connect_appends_pending_chat`: alice re-connects to bob
while her first request is still pending. -/
theorem connect_appends_pending_chat_witness :
    executeConnectCommand onePendingState cAlice "bob" =
      (⟨onePendingState.clients,
        onePendingState.chats ++ [⟨onePendingState.nextId, cAlice, cBob, false⟩],
        onePendingState.nextId + 1⟩,
        [(cBob, userStr cAlice.username ++ " wants to start a chat with you.")]) ∧
    ((onePendingState.chats ++ [(⟨onePendingState.nextId, cAlice, cBob, false⟩ : Chat)]).filter
        (fun ch => ch.initiator == cAlice && ch.target == cBob && !ch.is_approved)).length
      = ((onePendingState.chats).filter
        (fun ch => ch.initiator == cAlice && ch.target == cBob && !ch.is_approved)).length + 1 :=
  connect_appends_pending_chat onePendingState cAlice cBob "bob"
    (by decide) (by decide) (by decide)

/-- A client found by username bears that username. -/
theorem getClientByUsername_username {s : ServerState} {u : String} {c : Client}
    (h : getClientByUsername s u = some c) : c.username = some u := by
  have h2 := List.find?_some h
  simpa using h2

/-- `__execute_list_clients_command` never changes the state. -/
theorem executeListClients_state {s : ServerState} {caller : Client} {s' : ServerState}
    {msgs : List Msg} (h : executeListClientsCommand s caller = (s', msgs)) : s' = s := by
  unfold executeListClientsCommand at h
  injection h with h1 _
  exact h1.symm

/-- `__execute_chat_info_command` never changes the state. -/
theorem executeChatInfo_state {s : ServerState} {caller : Client} {s' : ServerState}
    {msgs : List Msg} (h : executeChatInfoCommand s caller = (s', msgs)) : s' = s := by
  unfold executeChatInfoCommand at h
  split at h <;> (injection h with h1 _; exact h1.symm)

/-- `__execue_requests_command` never changes the state. -/
theorem executeRequests_state {s : ServerState} {caller : Client} {s' : ServerState}
    {msgs : List Msg} (h : executeRequestsCommand s caller = (s', msgs)) : s' = s := by
  unfold executeRequestsCommand at h
  injection h with h1 _
  exact h1.symm

/-- `__execute_help_command` never changes the state. -/
theorem executeHelp_state {s : ServerState} {caller : Client} {s' : ServerState}
    {msgs : List Msg} (h : executeHelpCommand s caller = (s', msgs)) : s' = s := by
  unfold executeHelpCommand at h
  injection h with h1 _
  exact h1.symm

/-- When `__execute_connect_command` produces a single message addressed
to the caller, that message is one of the error replies and the state is
unchanged (on success the single message goes to the target, a client
with a different username). -/
theorem executeConnect_singleton_to_caller {s : ServerState} {caller : Client} {u : String}
    {s' : ServerState} {m : String}
    (h : executeConnectCommand s caller u = (s', [(caller, m)])) : s' = s := by
  unfold executeConnectCommand at h
  split at h
  · injection h with h1 _; exact h1.symm
  next hself =>
    split at h
    · injection h with h1 _; exact h1.symm
    · split at h
      · injection h with h1 _; exact h1.symm
      next target heq =>
        exfalso
        simp only [addChat, Prod.mk.injEq, List.cons.injEq] at h
        have htc : target = caller := congrArg Prod.fst h.2.1
        exact hself (htc ▸ getClientByUsername_username heq)

/-- When `__execute_approve_chat_command` produces a single message, the
state is unchanged (on success two messages are produced). -/
theorem executeApprove_singleton_to_caller {s : ServerState} {caller : Client} {u : String}
    {s' : ServerState} {m : String}
    (h : executeApproveChatCommand s caller u = (s', [(caller, m)])) : s' = s := by
  unfold executeApproveChatCommand at h
  repeat' split at h
  all_goals
    first
      | (injection h with h1 _; exact h1.symm)
      | (exfalso; simp at h)

/-- When `__execute_decline_chat_command` produces a single message, the
state is unchanged (on success two messages are produced). -/
theorem executeDecline_singleton_to_caller {s : ServerState} {caller : Client} {u : String}
    {s' : ServerState} {m : String}
    (h : executeDeclineChatCommand s caller u = (s', [(caller, m)])) : s' = s := by
  unfold executeDeclineChatCommand at h
  repeat' split at h
  all_goals
    first
      | (injection h with h1 _; exact h1.symm)
      | (exfalso; simp at h)

/-- When `__execute_disconnect_command` produces a single message, the
state is unchanged (on success both members are notified). -/
theorem executeDisconnect_singleton_to_caller {s : ServerState} {caller : Client}
    {s' : ServerState} {m : String}
    (h : executeDisconnectCommand s caller = (s', [(caller, m)])) : s' = s := by
  unfold executeDisconnectCommand at h
  split at h
  · injection h with h1 _; exact h1.symm
  · exfalso
    simp [Chat.members] at h

/-- C5: a command invocation that answers the caller with a single error
reply (unknown command, self-target, caller or named initiator already in
an active chat, unknown target user, no matching pending chat, no active
chat) leaves the client registry and the chat registry exactly as they
were. -/
theorem error_reply_preserves_registries (s : ServerState) (caller : Client)
    (raw : String) (args : List String) (s' : ServerState) (m : String)
    (hok : handleClientCommand s caller raw args = StepResult.ok s' [(caller, m)])
    (_herr : IsErrorReply m) :
    s'.clients = s.clients ∧ s'.chats = s.chats := by
  unfold handleClientCommand at hok
  split at hok
  · injection hok with h1 _
    subst h1
    exact ⟨rfl, rfl⟩
  · split at hok
    · -- handler invoked with the argument tokens
      split at hok
      · rcases hc : executeConnectCommand s caller _ with ⟨s2, msgs2⟩
        rw [hc] at hok
        injection hok with h1 h2
        subst h1; subst h2
        rw [executeConnect_singleton_to_caller hc]
        exact ⟨rfl, rfl⟩
      · rcases hc : executeApproveChatCommand s caller _ with ⟨s2, msgs2⟩
        rw [hc] at hok
        injection hok with h1 h2
        subst h1; subst h2
        rw [executeApprove_singleton_to_caller hc]
        exact ⟨rfl, rfl⟩
      · rcases hc : executeDeclineChatCommand s caller _ with ⟨s2, msgs2⟩
        rw [hc] at hok
        injection hok with h1 h2
        subst h1; subst h2
        rw [executeDecline_singleton_to_caller hc]
        exact ⟨rfl, rfl⟩
      · injection hok
    · -- handler invoked as handler(client)
      split at hok
      · injection hok
      · injection hok
      · injection hok
      · rcases hc : executeListClientsCommand s caller with ⟨s2, msgs2⟩
        rw [hc] at hok
        injection hok with h1 h2
        subst h1; subst h2
        rw [executeListClients_state hc]
        exact ⟨rfl, rfl⟩
      · rcases hc : executeDisconnectCommand s caller with ⟨s2, msgs2⟩
        rw [hc] at hok
        injection hok with h1 h2
        subst h1; subst h2
        rw [executeDisconnect_singleton_to_caller hc]
        exact ⟨rfl, rfl⟩
      · rcases hc : executeChatInfoCommand s caller with ⟨s2, msgs2⟩
        rw [hc] at hok
        injection hok with h1 h2
        subst h1; subst h2
        rw [executeChatInfo_state hc]
        exact ⟨rfl, rfl⟩
      · rcases hc : executeRequestsCommand s caller with ⟨s2, msgs2⟩
        rw [hc] at hok
        injection hok with h1 h2
        subst h1; subst h2
        rw [executeRequests_state hc]
        exact ⟨rfl, rfl⟩
      · rcases hc : executeHelpCommand s caller with ⟨s2, msgs2⟩
        rw [hc] at hok
        injection hok with h1 h2
        subst h1; subst h2
        rw [executeHelp_state hc]
        exact ⟨rfl, rfl⟩

/-- Witness for `error_reply_preserves_registries`: alice's self-connect
in the two-client state. -/
theorem error_reply_preserves_registries_witness :
    twoClientsState.clients = twoClientsState.clients ∧
      twoClientsState.chats = twoClientsState.chats :=
  error_reply_preserves_registries twoClientsState cAlice "connect" ["alice"]
    twoClientsState "Client is trying to connect to itself."
    (by decide) (Or.inr (Or.inl rfl))

/-- A newline-free character list splits into itself alone. -/
theorem splitNlAux_no_nl {w : List Char} (h : '\n' ∉ w) : splitNlAux w = [w] := by
  induction w with
  | nil => rfl
  | cons a as ih =>
    unfold splitNlAux
    have ha : ¬ (a == '\n') = true := by
      simp only [beq_iff_eq]
      intro hh
      exact h (hh ▸ List.mem_cons_self a as)
    rw [if_neg ha, ih (fun hm => h (List.mem_cons_of_mem a hm))]
    rfl

/-- Splitting at newlines peels off a leading newline-free segment. -/
theorem splitNlAux_append_nl {w : List Char} (r : List Char) (h : '\n' ∉ w) :
    splitNlAux (w ++ '\n' :: r) = w :: splitNlAux r := by
  induction w with
  | nil => simp [splitNlAux]
  | cons a as ih =>
    have ha : ¬ (a == '\n') = true := by
      simp only [beq_iff_eq]
      intro hh
      exact h (hh ▸ List.mem_cons_self a as)
    have ih2 := ih (fun hm => h (List.mem_cons_of_mem a hm))
    simp only [List.cons_append]
    conv_lhs => rw [splitNlAux]
    rw [if_neg ha, ih2]
    rfl

/-- Splitting the `"\n"`-join of a non-empty list of newline-free strings
recovers the list (so every element, an empty string included, is one of
the lines of the join). -/
theorem splitNl_pyJoin (names : List String) (hne : names ≠ [])
    (hnl : ∀ n ∈ names, '\n' ∉ n.data) :
    splitNl (pyJoin "\n" names) = names := by
  induction names with
  | nil => exact absurd rfl hne
  | cons x xs ih =>
    match xs, ih with
    | [], _ =>
      show splitNl x = [x]
      unfold splitNl
      rw [splitNlAux_no_nl (hnl x (List.mem_cons_self x []))]
      rfl
    | y :: ys, ih =>
      have hx : '\n' ∉ x.data := hnl x (List.mem_cons_self _ _)
      have hrest : ∀ n ∈ y :: ys, '\n' ∉ n.data :=
        fun n hn => hnl n (List.mem_cons_of_mem x hn)
      have ihr := ih (List.cons_ne_nil y ys) hrest
      show splitNl (x ++ "\n" ++ pyJoin "\n" (y :: ys)) = x :: y :: ys
      unfold splitNl
      have hdata : (x ++ "\n" ++ pyJoin "\n" (y :: ys)).data
          = x.data ++ '\n' :: (pyJoin "\n" (y :: ys)).data := by
        show (x.data ++ '\n' :: List.nil) ++ (pyJoin "\n" (y :: ys)).data
            = x.data ++ '\n' :: (pyJoin "\n" (y :: ys)).data
        simp
      rw [hdata, splitNlAux_append_nl _ hx]
      show x :: splitNl (pyJoin "\n" (y :: ys)) = x :: y :: ys
      rw [ihr]

/-- C10, amended: during registration a line consisting only of
whitespace is accepted whenever no current client has the empty name: the
username becomes `""`, the client counts as registered, and in another
client's `/clients` output the empty name contributes an empty line
whenever the joined name list is non-empty; when the empty name is the
only listed name the join is empty and the reply is "No available
clients." instead, so the client does not appear. -/
theorem whitespace_name_registers_empty (s : ServerState) (cid : Nat) (raw : String)
    (c caller : Client)
    (hfind : findClientById s cid = some c) (hunreg : c.username = none)
    (hraw : raw ≠ "") (hws : pyStrip raw = "")
    (hfree : some "" ∉ s.clients.map (fun x => x.username)) :
    stepAction s (Action.register cid raw) =
      StepResult.ok (setUsername s c "") [(⟨c.id, some "", c.sock⟩, helpMessage)] ∧
    Client.isRegistered ⟨c.id, some "", c.sock⟩ = true ∧
    (∀ s2 : ServerState, "" ∈ listedNames s2 caller →
      (∀ n ∈ listedNames s2 caller, '\n' ∉ n.data) →
      (pyJoin "\n" (listedNames s2 caller) = "" →
        executeListClientsCommand s2 caller = (s2, [(caller, "No available clients.")])) ∧
      (pyJoin "\n" (listedNames s2 caller) ≠ "" →
        "" ∈ splitNl (pyJoin "\n" (listedNames s2 caller)) ∧
        executeListClientsCommand s2 caller =
          (s2, [(caller, pyJoin "\n" (listedNames s2 caller))]))) := by
  refine ⟨?_, rfl, ?_⟩
  · simp [stepAction, hfind, hunreg, handleRegisterClientStep, hraw, hws, hfree]
  · intro s2 hmem hnl
    constructor
    · intro hj
      simp [executeListClientsCommand, hj]
    · intro hj
      have hne : listedNames s2 caller ≠ [] := by
        intro hnil
        rw [hnil] at hmem
        exact absurd hmem (List.not_mem_nil "")
      constructor
      · rw [splitNl_pyJoin (listedNames s2 caller) hne hnl]
        exact hmem
      · simp [executeListClientsCommand, hj]

/-- Witness for `whitespace_name_registers_empty`: a fresh client sends a
whitespace-only line beside bob, and carol's `/clients` view of a state
holding the empty name next to bob's shows the empty line. -/
theorem whitespace_name_registers_empty_witness :
    stepAction ⟨[⟨0, none, 0⟩, cBob], [], 2⟩ (Action.register 0 "   ") =
      StepResult.ok (setUsername ⟨[⟨0, none, 0⟩, cBob], [], 2⟩ ⟨0, none, 0⟩ "")
        [(⟨0, some "", 0⟩, helpMessage)] ∧
    Client.isRegistered ⟨0, some "", 0⟩ = true ∧
    ("" ∈ splitNl (pyJoin "\n" (listedNames ⟨[⟨0, some "", 0⟩, cBob, ⟨2, some "carol", 2⟩], [], 3⟩ ⟨2, some "carol", 2⟩)) ∧
      executeListClientsCommand ⟨[⟨0, some "", 0⟩, cBob, ⟨2, some "carol", 2⟩], [], 3⟩ ⟨2, some "carol", 2⟩ =
        (⟨[⟨0, some "", 0⟩, cBob, ⟨2, some "carol", 2⟩], [], 3⟩,
          [(⟨2, some "carol", 2⟩, pyJoin "\n" (listedNames ⟨[⟨0, some "", 0⟩, cBob, ⟨2, some "carol", 2⟩], [], 3⟩ ⟨2, some "carol", 2⟩))])) := by
  have h := whitespace_name_registers_empty ⟨[⟨0, none, 0⟩, cBob], [], 2⟩ 0 "   "
    ⟨0, none, 0⟩ ⟨2, some "carol", 2⟩ (by decide) rfl (by decide) (by decide) (by decide)
  exact ⟨h.1, h.2.1,
    (h.2.2 ⟨[⟨0, some "", 0⟩, cBob, ⟨2, some "carol", 2⟩], [], 3⟩ (by decide) (by decide)).2 (by decide)⟩

/-- Registry sanity maintained by every reachable state: client ids are
pairwise distinct and below the id counter, and the list of usernames of
registered clients has no duplicate. -/
def RegInvariant (s : ServerState) : Prop :=
  (s.clients.map (fun c => c.id)).Nodup ∧
  (∀ c ∈ s.clients, c.id < s.nextId) ∧
  (s.clients.filterMap (fun c => c.username)).Nodup

/-- A state with the same client registry and a no-smaller id counter
inherits the invariant. -/
theorem regInvariant_clients_eq {s s' : ServerState} (inv : RegInvariant s)
    (hc : s'.clients = s.clients) (hn : s.nextId ≤ s'.nextId) : RegInvariant s' := by
  obtain ⟨h1, h2, h3⟩ := inv
  exact ⟨hc ▸ h1, fun c hm => lt_of_lt_of_le (h2 c (hc ▸ hm)) hn, hc ▸ h3⟩

/-- `__execute_connect_command` never touches the client registry and
never decreases the id counter. -/
theorem executeConnect_clients {s : ServerState} {caller : Client} {u : String}
    {s' : ServerState} {msgs : List Msg}
    (h : executeConnectCommand s caller u = (s', msgs)) :
    s'.clients = s.clients ∧ s.nextId ≤ s'.nextId := by
  unfold executeConnectCommand at h
  repeat' split at h
  all_goals (injection h with h1 _; subst h1; simp [addChat])

/-- `__execute_approve_chat_command` never touches the client registry
and keeps the id counter. -/
theorem executeApprove_clients {s : ServerState} {caller : Client} {u : String}
    {s' : ServerState} {msgs : List Msg}
    (h : executeApproveChatCommand s caller u = (s', msgs)) :
    s'.clients = s.clients ∧ s.nextId ≤ s'.nextId := by
  unfold executeApproveChatCommand at h
  repeat' split at h
  all_goals (injection h with h1 _; subst h1; simp [approveChat])

/-- `__execute_decline_chat_command` never touches the client registry
and keeps the id counter. -/
theorem executeDecline_clients {s : ServerState} {caller : Client} {u : String}
    {s' : ServerState} {msgs : List Msg}
    (h : executeDeclineChatCommand s caller u = (s', msgs)) :
    s'.clients = s.clients ∧ s.nextId ≤ s'.nextId := by
  unfold executeDeclineChatCommand at h
  repeat' split at h
  all_goals (injection h with h1 _; subst h1; simp [deleteChat])

/-- `__execute_disconnect_command` never touches the client registry and
keeps the id counter. -/
theorem executeDisconnect_clients {s : ServerState} {caller : Client}
    {s' : ServerState} {msgs : List Msg}
    (h : executeDisconnectCommand s caller = (s', msgs)) :
    s'.clients = s.clients ∧ s.nextId ≤ s'.nextId := by
  unfold executeDisconnectCommand at h
  repeat' split at h
  all_goals (injection h with h1 _; subst h1; simp [deleteChat])

/-- Command dispatch never touches the client registry and never
decreases the id counter. -/
theorem handleClientCommand_clients {s : ServerState} {caller : Client} {raw : String}
    {args : List String} {s' : ServerState} {msgs : List Msg}
    (h : handleClientCommand s caller raw args = StepResult.ok s' msgs) :
    s'.clients = s.clients ∧ s.nextId ≤ s'.nextId := by
  unfold handleClientCommand at h
  split at h
  · injection h with h1 _; subst h1; exact ⟨rfl, Nat.le_refl _⟩
  · split at h
    · split at h
      · rcases hc : executeConnectCommand s caller _ with ⟨s2, m2⟩
        rw [hc] at h
        injection h with h1 _
        subst h1
        exact executeConnect_clients hc
      · rcases hc : executeApproveChatCommand s caller _ with ⟨s2, m2⟩
        rw [hc] at h
        injection h with h1 _
        subst h1
        exact executeApprove_clients hc
      · rcases hc : executeDeclineChatCommand s caller _ with ⟨s2, m2⟩
        rw [hc] at h
        injection h with h1 _
        subst h1
        exact executeDecline_clients hc
      · injection h
    · split at h
      · injection h
      · injection h
      · injection h
      · rcases hc : executeListClientsCommand s caller with ⟨s2, m2⟩
        rw [hc] at h
        injection h with h1 _
        subst h1
        rw [executeListClients_state hc]
        exact ⟨rfl, Nat.le_refl _⟩
      · rcases hc : executeDisconnectCommand s caller with ⟨s2, m2⟩
        rw [hc] at h
        injection h with h1 _
        subst h1
        exact executeDisconnect_clients hc
      · rcases hc : executeChatInfoCommand s caller with ⟨s2, m2⟩
        rw [hc] at h
        injection h with h1 _
        subst h1
        rw [executeChatInfo_state hc]
        exact ⟨rfl, Nat.le_refl _⟩
      · rcases hc : executeRequestsCommand s caller with ⟨s2, m2⟩
        rw [hc] at h
        injection h with h1 _
        subst h1
        rw [executeRequests_state hc]
        exact ⟨rfl, Nat.le_refl _⟩
      · rcases hc : executeHelpCommand s caller with ⟨s2, m2⟩
        rw [hc] at h
        injection h with h1 _
        subst h1
        rw [executeHelp_state hc]
        exact ⟨rfl, Nat.le_refl _⟩

/-- Accepting a connection preserves the registry invariant: the new
client gets a fresh id and no username. -/
theorem acceptStep_invariant {s : ServerState} (inv : RegInvariant s) :
    RegInvariant (acceptStep s).1 := by
  obtain ⟨h1, h2, h3⟩ := inv
  refine ⟨?_, ?_, ?_⟩
  · simp only [acceptStep, List.map_append, List.map_cons, List.map_nil]
    rw [List.nodup_append]
    refine ⟨h1, List.nodup_singleton _, ?_⟩
    intro a ha hb
    simp only [List.mem_singleton] at hb
    subst hb
    rcases List.mem_map.mp ha with ⟨c, hcm, hcid⟩
    exact absurd (hcid ▸ h2 c hcm) (lt_irrefl _)
  · intro c hm
    simp only [acceptStep] at hm ⊢
    rcases List.mem_append.mp hm with hold | hnew
    · exact Nat.lt_succ_of_lt (h2 c hold)
    · simp only [List.mem_singleton] at hnew
      subst hnew
      exact Nat.lt_succ_self _
  · simpa [acceptStep, List.filterMap_append] using h3

/-- Disconnecting a client preserves the registry invariant (it only
removes entries). -/
theorem disconnectClient_invariant {s : ServerState} {c : Client}
    (inv : RegInvariant s) : RegInvariant (disconnectClient s c) := by
  obtain ⟨h1, h2, h3⟩ := inv
  have hsub : (disconnectClient s c).clients.Sublist s.clients :=
    List.erase_sublist c s.clients
  refine ⟨?_, ?_, ?_⟩
  · exact h1.sublist (hsub.map (fun c => c.id))
  · intro x hx
    exact h2 x (hsub.subset hx)
  · exact h3.sublist (hsub.filterMap (fun c => c.username))

/-- Setting a fresh username on an unregistered client preserves the
registry invariant — the check and the assignment are one atomic step. -/
theorem setUsername_invariant {s : ServerState} {c : Client} {u : String}
    (inv : RegInvariant s) (hc : c ∈ s.clients) (hnone : c.username = none)
    (hfree : some u ∉ s.clients.map (fun x => x.username)) :
    RegInvariant (setUsername s c u) := by
  obtain ⟨h1, h2, h3⟩ := inv
  obtain ⟨l1, l2, hl⟩ := List.append_of_mem hc
  have hne : ∀ x ∈ l1 ++ l2, x ≠ c := by
    intro x hx hxc
    subst hxc
    rw [hl, List.map_append, List.map_cons] at h1
    have h1' := List.nodup_middle.mp h1
    have hnm := (List.nodup_cons.mp h1').1
    rcases List.mem_append.mp hx with hx1 | hx1
    · exact hnm (List.mem_append.mpr (Or.inl (List.mem_map_of_mem (fun c => c.id) hx1)))
    · exact hnm (List.mem_append.mpr (Or.inr (List.mem_map_of_mem (fun c => c.id) hx1)))
  have hmap : (setUsername s c u).clients
      = l1 ++ (⟨c.id, some u, c.sock⟩ : Client) :: l2 := by
    simp only [setUsername, hl, List.map_append, List.map_cons, if_pos rfl]
    have hm1 : l1.map (fun x => if x = c then (⟨x.id, some u, x.sock⟩ : Client) else x) = l1 := by
      conv_rhs => rw [← List.map_id l1]
      refine List.map_congr_left ?_
      intro x hx
      rw [if_neg (hne x (List.mem_append.mpr (Or.inl hx)))]
      rfl
    have hm2 : l2.map (fun x => if x = c then (⟨x.id, some u, x.sock⟩ : Client) else x) = l2 := by
      conv_rhs => rw [← List.map_id l2]
      refine List.map_congr_left ?_
      intro x hx
      rw [if_neg (hne x (List.mem_append.mpr (Or.inr hx)))]
      rfl
    rw [hm1, hm2]
    simp
  refine ⟨?_, ?_, ?_⟩
  · rw [hmap, List.map_append, List.map_cons]
    have h1' : ((l1 ++ c :: l2).map (fun c => c.id)).Nodup := hl ▸ h1
    rw [List.map_append, List.map_cons] at h1'
    exact h1'
  · intro x hx
    rw [hmap] at hx
    have hn : (setUsername s c u).nextId = s.nextId := rfl
    rw [hn]
    rcases List.mem_append.mp hx with hx1 | hx1
    · exact h2 x (hl ▸ List.mem_append.mpr (Or.inl hx1))
    · rcases List.mem_cons.mp hx1 with hx2 | hx2
      · subst hx2
        exact h2 c (hl ▸ List.mem_append.mpr (Or.inr (List.mem_cons_self _ _)))
      · exact h2 x (hl ▸ List.mem_append.mpr (Or.inr (List.mem_cons_of_mem _ hx2)))
  · rw [hmap, List.filterMap_append, List.filterMap_cons]
    simp only []
    have h3' : ((l1 ++ c :: l2).filterMap (fun c => c.username)).Nodup := hl ▸ h3
    rw [List.filterMap_append, List.filterMap_cons, hnone] at h3'
    have hfree' : u ∉ (l1.filterMap (fun c => c.username) ++ l2.filterMap (fun c => c.username)) := by
      intro hmem
      rcases List.mem_append.mp hmem with hm | hm
      · rcases List.mem_filterMap.mp hm with ⟨x, hx, hxu⟩
        exact hfree (hxu ▸ List.mem_map_of_mem (fun x => x.username)
          (hl ▸ List.mem_append.mpr (Or.inl hx)))
      · rcases List.mem_filterMap.mp hm with ⟨x, hx, hxu⟩
        exact hfree (hxu ▸ List.mem_map_of_mem (fun x => x.username)
          (hl ▸ List.mem_append.mpr (Or.inr (List.mem_cons_of_mem _ hx))))
    exact List.nodup_middle.mpr (List.nodup_cons.mpr ⟨hfree', h3'⟩)

/-- One resumption of the registration task preserves the registry
invariant. -/
theorem handleRegisterClientStep_invariant {s : ServerState} {c : Client} {raw : String}
    (inv : RegInvariant s) (hc : c ∈ s.clients) (hnone : c.username = none) :
    RegInvariant (handleRegisterClientStep s c raw).1 := by
  unfold handleRegisterClientStep
  split
  · exact disconnectClient_invariant inv
  · dsimp only
    split
    · exact inv
    next hfree => exact setUsername_invariant inv hc hnone hfree

/-- One resumption of the message-loop task preserves the registry
invariant. -/
theorem handleClientMessageStep_invariant {s : ServerState} {c : Client} {raw : String}
    {s' : ServerState} {msgs : List Msg} (inv : RegInvariant s)
    (h : handleClientMessageStep s c raw = StepResult.ok s' msgs) :
    RegInvariant s' := by
  unfold handleClientMessageStep at h
  split at h
  · injection h with h1 _
    subst h1
    exact disconnectClient_invariant inv
  · split at h
    · split at h
      · injection h
      · rcases handleClientCommand_clients h with ⟨hcl, hn⟩
        exact regInvariant_clients_eq inv hcl hn
    · split at h
      · rcases hc : handleChatMessage s c raw with ⟨s2, m2⟩
        rw [hc] at h
        injection h with h1 _
        subst h1
        unfold handleChatMessage at hc
        split at hc <;> (injection hc with h1 _; subst h1; exact inv)
      · injection h with h1 _
        subst h1
        exact inv

/-- Every action preserves the registry invariant. -/
theorem stepAction_invariant {s : ServerState} {a : Action} {s' : ServerState}
    {msgs : List Msg} (inv : RegInvariant s)
    (h : stepAction s a = StepResult.ok s' msgs) : RegInvariant s' := by
  unfold stepAction at h
  split at h
  · injection h with h1 _
    subst h1
    exact acceptStep_invariant inv
  · split at h
    next c hfind =>
      split at h
      next hnone =>
        injection h with h1 _
        subst h1
        exact handleRegisterClientStep_invariant inv (List.mem_of_find?_eq_some hfind) hnone
      · injection h with h1 _
        subst h1
        exact inv
    · injection h with h1 _
      subst h1
      exact inv
  · split at h
    next c hfind =>
      split at h
      · injection h with h1 _
        subst h1
        exact inv
      · exact handleClientMessageStep_invariant inv h
    · injection h with h1 _
      subst h1
      exact inv

/-- Running any action list preserves the registry invariant. -/
theorem runActs_invariant {acts : List Action} :
    ∀ {s s' : ServerState}, RegInvariant s → runActs s acts = some s' → RegInvariant s' := by
  induction acts with
  | nil =>
    intro s s' inv h
    injection h with h1
    subst h1
    exact inv
  | cons a rest ih =>
    intro s s' inv h
    unfold runActs at h
    split at h
    next s2 m2 hstep => exact ih (stepAction_invariant inv hstep) h
    · exact absurd h (by simp)

/-- Every reachable state satisfies the registry invariant. -/
theorem regInvariant_of_reachable {s : ServerState} (h : Reachable s) : RegInvariant s := by
  obtain ⟨acts, hrun⟩ := h
  have hinit : RegInvariant initState := by
    refine ⟨List.nodup_nil, ?_, List.nodup_nil⟩
    intro c hm
    exact absurd hm (List.not_mem_nil c)
  exact runActs_invariant hinit hrun

/-- Two distinct clients of a registry whose username list has no
duplicate cannot bear the same name. -/
theorem names_unique_helper {l : List Client}
    (hid : (l.map (fun c => c.id)).Nodup)
    (hname : (l.filterMap (fun c => c.username)).Nodup)
    {c1 c2 : Client} (h1 : c1 ∈ l) (h2 : c2 ∈ l) (hne : c1.id ≠ c2.id)
    {u : String} (e1 : c1.username = some u) : c2.username ≠ some u := by
  intro e2
  obtain ⟨l1, l2, hl⟩ := List.append_of_mem h1
  subst hl
  have hc2 : c2 ∈ l1 ∨ c2 ∈ l2 := by
    rcases List.mem_append.mp h2 with h | h
    · exact Or.inl h
    · rcases List.mem_cons.mp h with h | h
      · exact absurd (congrArg Client.id h).symm hne
      · exact Or.inr h
  have hmid : ((l1.filterMap (fun c => c.username))
      ++ u :: (l2.filterMap (fun c => c.username))).Nodup := by
    have := hname
    rw [List.filterMap_append, List.filterMap_cons, e1] at this
    exact this
  have hhead := (List.nodup_cons.mp (List.nodup_middle.mp hmid)).1
  rcases hc2 with h | h
  · exact hhead (List.mem_append.mpr (Or.inl (List.mem_filterMap.mpr ⟨c2, h, e2⟩)))
  · exact hhead (List.mem_append.mpr (Or.inr (List.mem_filterMap.mpr ⟨c2, h, e2⟩)))

/-- C6: in every reachable state no two clients carry the same non-empty
display name, and a registration attempt proposing a name already held by
any current client is answered with "Username is already in use, try
another one:" and changes nothing, leaving the proposing client
unregistered.  The name check and the name assignment are a single
resumption of the registration task: `handleRegisterClientStep` performs
both with no yield between them, exactly as `__handle_register_client`
does between its `yield` points. -/
theorem registration_name_uniqueness (s : ServerState) (hreach : Reachable s) :
    (∀ c1 ∈ s.clients, ∀ c2 ∈ s.clients, c1.id ≠ c2.id → ∀ u : String, u ≠ "" →
      c1.username = some u → c2.username ≠ some u) ∧
    (∀ cid raw c, findClientById s cid = some c → c.username = none → raw ≠ "" →
      some (pyStrip raw) ∈ s.clients.map (fun x => x.username) →
      stepAction s (Action.register cid raw) =
        StepResult.ok s [(c, "Username is already in use, try another one:")]) := by
  obtain ⟨hid, hbound, hname⟩ := regInvariant_of_reachable hreach
  constructor
  · intro c1 h1 c2 h2 hne u _hu e1
    exact names_unique_helper hid hname h1 h2 hne e1
  · intro cid raw c hfind hnone hraw htaken
    simp [stepAction, hfind, hnone, handleRegisterClientStep, hraw, htaken]

/-- The two-registered-plus-one-fresh-client state used as the witness
for `registration_name_uniqueness`. -/
def threeClientsState : ServerState := ⟨[cAlice, cBob, ⟨2, none, 2⟩], [], 3⟩

/-- Witness for `registration_name_uniqueness`: in the reachable state
with alice, bob and a fresh client, bob does not bear "alice", and the
fresh client proposing "alice" is rejected. -/
theorem registration_name_uniqueness_witness :
    cBob.username ≠ some "alice" ∧
    stepAction threeClientsState (Action.register 2 "alice") =
      StepResult.ok threeClientsState
        [(⟨2, none, 2⟩, "Username is already in use, try another one:")] := by
  have h := registration_name_uniqueness threeClientsState
    ⟨[Action.accept, Action.accept, Action.register 0 "alice", Action.register 1 "bob",
      Action.accept], by decide⟩
  exact ⟨h.1 cAlice (by decide) cBob (by decide) (by decide) "alice" (by decide) rfl,
    h.2 2 "alice" ⟨2, none, 2⟩ (by decide) rfl (by decide) (by decide)⟩

end ChatServer
